import Mathlib

/-!
Verification of the toy_marketplace transaction engine (`src/main.rs`).

The engine folds a stream of transactions over two stores:
a client list (accounts keyed by `u16` client id) and a transaction
journal (standard transactions keyed by `u32` transaction id).
Amounts are `rust_decimal::Decimal` values, which support exact
addition and subtraction; we embed them as `Rat`.  Identifiers are
only compared for equality, never computed with, so we embed `u16`
and `u32` ids as `Nat`.  The Rust functions mutate the stores through
`&mut` references and return `anyhow::Result<()>`; we embed them as
functions returning the result together with the post-state, and we
model the two `expect`/`panic!` sites by an outer `Option` (`none`
means the Rust code would panic).
-/

namespace ToyMarketplace

/-- The five transaction kinds of `enum TransactionType` (the source
spells Withdrawal as `Withdrawl`). -/
inductive TransactionType where
  | Deposit
  | Withdrawl
  | Dispute
  | Resolve
  | ChargeBack
deriving DecidableEq, Repr

/-- `struct Client`: one account row. -/
structure Client where
  id : Nat
  available_amount : Rat
  held_amount : Rat
  total_amount : Rat
  locked : Bool
deriving DecidableEq, Repr

/-- `Client::new`: zero balances, unlocked. -/
def Client.new (id : Nat) : Client :=
  { id := id
    available_amount := 0
    held_amount := 0
    total_amount := 0
    locked := false }

/-- `Client::deposit`: increases available and total funds by amount. -/
def Client.deposit (c : Client) (amount : Rat) : Client :=
  { c with
    available_amount := c.available_amount + amount
    total_amount := c.total_amount + amount }

/-- `Client::withdraw`: decreases available and total funds by amount. -/
def Client.withdraw (c : Client) (amount : Rat) : Client :=
  { c with
    available_amount := c.available_amount - amount
    total_amount := c.total_amount - amount }

/-- `Client::hold`: available decreases, held increases, total unchanged. -/
def Client.hold (c : Client) (amount : Rat) : Client :=
  { c with
    available_amount := c.available_amount - amount
    held_amount := c.held_amount + amount }

/-- `Client::release`: held decreases, available increases, total unchanged. -/
def Client.release (c : Client) (amount : Rat) : Client :=
  { c with
    held_amount := c.held_amount - amount
    available_amount := c.available_amount + amount }

/-- `Client::freeze`: sets the locked flag. -/
def Client.freeze (c : Client) : Client :=
  { c with locked := true }

/-- `struct Transaction`: one decoded input row.  `disputed` defaults
to `false` on deserialization (`#[serde(default)]`). -/
structure Transaction where
  transaction_type : TransactionType
  client_id : Nat
  transaction_id : Nat
  amount : Option Rat
  disputed : Bool
deriving DecidableEq, Repr

/-- The error of `Transaction::amount()`: `anyhow!("No amount field in
Transaction: {:?}", self)`, carrying the offending transaction. -/
inductive TxError where
  | missingAmount : Transaction → TxError
deriving DecidableEq, Repr

/-- `Transaction::amount()`: the amount, or the missing-amount error.
(Named `amountResult` because the field accessor already takes the
name `amount`.) -/
def Transaction.amountResult (t : Transaction) : Except TxError Rat :=
  match t.amount with
  | some a => Except.ok a
  | none => Except.error (TxError.missingAmount t)

/-- `type ClientList = HashMap<u16, Client>` as a lookup function. -/
def ClientList : Type := Nat → Option Client

/-- `type TransactionList = HashMap<u32, Transaction>` as a lookup
function. -/
def TransactionList : Type := Nat → Option Transaction

/-- `HashMap::insert` on the client list. -/
def insertClient (m : ClientList) (k : Nat) (v : Client) : ClientList :=
  fun k' => if k' = k then some v else m k'

/-- `HashMap::insert` on the transaction journal. -/
def insertTx (m : TransactionList) (k : Nat) (v : Transaction) : TransactionList :=
  fun k' => if k' = k then some v else m k'

/-- The empty client list (`HashMap::new()`). -/
def emptyClients : ClientList := fun _ => none

/-- The empty transaction journal (`HashMap::new()`). -/
def emptyTxs : TransactionList := fun _ => none

/-- The result of one engine call: the Rust `Result<()>` paired with
the post-state of the two `&mut` stores. -/
def EngineResult : Type := Except TxError Unit × ClientList × TransactionList

/-- `handle_standard_transaction`: journals the transaction (insert =
overwrite), then applies the deposit / withdrawal to the stated
client.  `none` models the `expect` panic on a missing client and the
`panic!` on a non-standard kind; the journal insert happens before the
amount is demanded, so the missing-amount error leaves the inserted
journal entry behind. -/
def handle_standard_transaction (transaction : Transaction)
    (client_list : ClientList) (transaction_list : TransactionList) :
    Option EngineResult :=
  let transaction_id := transaction.transaction_id
  let transaction_list := insertTx transaction_list transaction_id transaction
  match client_list transaction.client_id with
  | none => none
  | some client =>
    match transaction.transaction_type with
    | TransactionType.Deposit =>
      match transaction.amountResult with
      | Except.ok a =>
        some (Except.ok (),
          insertClient client_list transaction.client_id (client.deposit a),
          transaction_list)
      | Except.error e => some (Except.error e, client_list, transaction_list)
    | TransactionType.Withdrawl =>
      match transaction.amountResult with
      | Except.ok a =>
        some (Except.ok (),
          insertClient client_list transaction.client_id (client.withdraw a),
          transaction_list)
      | Except.error e => some (Except.error e, client_list, transaction_list)
    | _ => none

/-- `handle_meta_transaction`: looks up the referenced journal entry
(absent ⇒ silent no-op), then Dispute holds the entry's amount
unconditionally, while Resolve / ChargeBack act only when the entry's
`disputed` flag is set.  Note the source never writes to the journal
here — in particular Dispute does not set `disputed`. -/
def handle_meta_transaction (transaction : Transaction)
    (client_list : ClientList) (transaction_list : TransactionList) :
    Option EngineResult :=
  match transaction_list transaction.transaction_id with
  | none => some (Except.ok (), client_list, transaction_list)
  | some target_transaction =>
    match client_list transaction.client_id with
    | none => none
    | some client =>
      match transaction.transaction_type with
      | TransactionType.Dispute =>
        match target_transaction.amountResult with
        | Except.ok a =>
          some (Except.ok (),
            insertClient client_list transaction.client_id (client.hold a),
            transaction_list)
        | Except.error e => some (Except.error e, client_list, transaction_list)
      | TransactionType.Resolve =>
        if target_transaction.disputed then
          match target_transaction.amountResult with
          | Except.ok a =>
            some (Except.ok (),
              insertClient client_list transaction.client_id (client.release a),
              transaction_list)
          | Except.error e => some (Except.error e, client_list, transaction_list)
        else some (Except.ok (), client_list, transaction_list)
      | TransactionType.ChargeBack =>
        if target_transaction.disputed then
          match target_transaction.amountResult with
          | Except.ok a =>
            some (Except.ok (),
              insertClient client_list transaction.client_id
                ((client.withdraw a).freeze),
              transaction_list)
          | Except.error e => some (Except.error e, client_list, transaction_list)
        else some (Except.ok (), client_list, transaction_list)
      | _ => none

/-- `handle_transaction`: always (first) inserts a fresh account for
the transaction's client when absent, then dispatches standard kinds
to `handle_standard_transaction` and the rest to
`handle_meta_transaction`. -/
def handle_transaction (transaction : Transaction)
    (client_list : ClientList) (transaction_list : TransactionList) :
    Option EngineResult :=
  let client_list :=
    if (client_list transaction.client_id).isSome then client_list
    else insertClient client_list transaction.client_id
      (Client.new transaction.client_id)
  match transaction.transaction_type with
  | TransactionType.Deposit | TransactionType.Withdrawl =>
    handle_standard_transaction transaction client_list transaction_list
  | _ => handle_meta_transaction transaction client_list transaction_list

/-- The processing loop of `main`: feeds the transactions in order to
`handle_transaction`, aborting the run on the first error (`?`), with
`none` again modelling a panic. -/
def runTransactions : List Transaction → ClientList → TransactionList →
    Option (Except TxError (ClientList × TransactionList))
  | [], cl, tl => some (Except.ok (cl, tl))
  | t :: ts, cl, tl =>
    match handle_transaction t cl tl with
    | none => none
    | some (Except.error e, _, _) => some (Except.error e)
    | some (Except.ok (), cl', tl') => runTransactions ts cl' tl'

/-- Store states reachable from the empty stores by successful
`handle_transaction` applications (the run driver aborts on the first
error, so these are exactly the states a run passes through). -/
inductive Reachable : ClientList → TransactionList → Prop where
  | empty : Reachable emptyClients emptyTxs
  | step {cl tl cl' tl' : _} {t : Transaction} :
      Reachable cl tl →
      handle_transaction t cl tl = some (Except.ok (), cl', tl') →
      Reachable cl' tl'

/-- The per-account balance invariant of §8 of the spec. -/
def ClientInv (c : Client) : Prop :=
  c.total_amount = c.available_amount + c.held_amount

/-- Every account present in the store satisfies `ClientInv`. -/
def StoreInv (cl : ClientList) : Prop :=
  ∀ k c, cl k = some c → ClientInv c

/-- Every journaled transaction carries an amount. -/
def JournalAmounts (tl : TransactionList) : Prop :=
  ∀ i tr, tl i = some tr → tr.amount ≠ none

/-- The client list after the unconditional account-creation step at
the top of `handle_transaction`. -/
def ensureClient (cl : ClientList) (k : Nat) : ClientList :=
  if (cl k).isSome then cl else insertClient cl k (Client.new k)

theorem amountResult_eq_ok {t : Transaction} {a : Rat} :
    t.amountResult = Except.ok a ↔ t.amount = some a := by
  unfold Transaction.amountResult
  cases t.amount <;> simp

theorem amountResult_eq_error {t : Transaction} {e : TxError} :
    t.amountResult = Except.error e ↔
      t.amount = none ∧ e = TxError.missingAmount t := by
  unfold Transaction.amountResult
  cases t.amount <;> simp [eq_comm]

theorem handle_transaction_eq (t : Transaction) (cl : ClientList)
    (tl : TransactionList) :
    handle_transaction t cl tl =
      match t.transaction_type with
      | TransactionType.Deposit | TransactionType.Withdrawl =>
        handle_standard_transaction t (ensureClient cl t.client_id) tl
      | _ => handle_meta_transaction t (ensureClient cl t.client_id) tl := by
  rfl

theorem ensureClient_isSome (cl : ClientList) (k : Nat) :
    ((ensureClient cl k) k).isSome := by
  unfold ensureClient
  by_cases h : (cl k).isSome
  · simp [h]
  · simp [h, insertClient]

/-- Case analysis on a completed `handle_standard_transaction` call:
the journal always gains (or overwrites) the entry for the
transaction id; the client list is unchanged (missing amount) or the
stated client is replaced by its deposit / withdrawal image. -/
theorem handle_standard_cases {t : Transaction} {cl cl' : ClientList}
    {tl tl' : TransactionList} {r : Except TxError Unit}
    (h : handle_standard_transaction t cl tl = some (r, cl', tl')) :
    tl' = insertTx tl t.transaction_id t ∧
      (cl' = cl ∨
        ∃ c a, cl t.client_id = some c ∧ t.amount = some a ∧
          (cl' = insertClient cl t.client_id (c.deposit a) ∨
            cl' = insertClient cl t.client_id (c.withdraw a))) := by
  simp only [handle_standard_transaction] at h
  split at h
  · exact absurd h (by simp)
  · rename_i c hc
    split at h
    · split at h <;> rename_i ha
      · cases h
        exact ⟨rfl, Or.inr ⟨c, _, hc, amountResult_eq_ok.mp ha, Or.inl rfl⟩⟩
      · cases h
        exact ⟨rfl, Or.inl rfl⟩
    · split at h <;> rename_i ha
      · cases h
        exact ⟨rfl, Or.inr ⟨c, _, hc, amountResult_eq_ok.mp ha, Or.inr rfl⟩⟩
      · cases h
        exact ⟨rfl, Or.inl rfl⟩
    · exact absurd h (by simp)

/-- Case analysis on a completed `handle_meta_transaction` call: the
journal is never modified; the client list is unchanged or the stated
client is replaced by its hold / release / chargeback image. -/
theorem handle_meta_cases {t : Transaction} {cl cl' : ClientList}
    {tl tl' : TransactionList} {r : Except TxError Unit}
    (h : handle_meta_transaction t cl tl = some (r, cl', tl')) :
    tl' = tl ∧
      (cl' = cl ∨
        ∃ c a, cl t.client_id = some c ∧
          (cl' = insertClient cl t.client_id (c.hold a) ∨
            cl' = insertClient cl t.client_id (c.release a) ∨
            cl' = insertClient cl t.client_id ((c.withdraw a).freeze))) := by
  simp only [handle_meta_transaction] at h
  split at h
  · cases h
    exact ⟨rfl, Or.inl rfl⟩
  · rename_i tgt htgt
    split at h
    · exact absurd h (by simp)
    · rename_i c hc
      split at h
      · split at h <;> rename_i ha
        · cases h
          exact ⟨rfl, Or.inr ⟨c, _, hc, Or.inl rfl⟩⟩
        · cases h
          exact ⟨rfl, Or.inl rfl⟩
      · split at h
        · split at h <;> rename_i ha
          · cases h
            exact ⟨rfl, Or.inr ⟨c, _, hc, Or.inr (Or.inl rfl)⟩⟩
          · cases h
            exact ⟨rfl, Or.inl rfl⟩
        · cases h
          exact ⟨rfl, Or.inl rfl⟩
      · split at h
        · split at h <;> rename_i ha
          · cases h
            exact ⟨rfl, Or.inr ⟨c, _, hc, Or.inr (Or.inr rfl)⟩⟩
          · cases h
            exact ⟨rfl, Or.inl rfl⟩
        · cases h
          exact ⟨rfl, Or.inl rfl⟩
      · exact absurd h (by simp)

theorem clientInv_new (i : Nat) : ClientInv (Client.new i) := by
  simp [ClientInv, Client.new]

theorem clientInv_deposit {c : Client} (a : Rat) (h : ClientInv c) :
    ClientInv (c.deposit a) := by
  simp only [ClientInv, Client.deposit] at *
  linarith

theorem clientInv_withdraw {c : Client} (a : Rat) (h : ClientInv c) :
    ClientInv (c.withdraw a) := by
  simp only [ClientInv, Client.withdraw] at *
  linarith

theorem clientInv_hold {c : Client} (a : Rat) (h : ClientInv c) :
    ClientInv (c.hold a) := by
  simp only [ClientInv, Client.hold] at *
  linarith

theorem clientInv_release {c : Client} (a : Rat) (h : ClientInv c) :
    ClientInv (c.release a) := by
  simp only [ClientInv, Client.release] at *
  linarith

theorem clientInv_freeze {c : Client} (h : ClientInv c) :
    ClientInv c.freeze := by
  simpa [ClientInv, Client.freeze] using h

theorem storeInv_insert {cl : ClientList} {c : Client} {k : Nat}
    (h : StoreInv cl) (hc : ClientInv c) : StoreInv (insertClient cl k c) := by
  intro k' c' h'
  unfold insertClient at h'
  split at h'
  · cases h'
    exact hc
  · exact h k' c' h'

theorem storeInv_ensure {cl : ClientList} (k : Nat) (h : StoreInv cl) :
    StoreInv (ensureClient cl k) := by
  unfold ensureClient
  split
  · exact h
  · exact storeInv_insert h (clientInv_new k)

/-- Any completed `handle_transaction` call preserves the per-account
balance invariant, whatever Result it returns. -/
theorem handle_transaction_storeInv {t : Transaction} {cl cl' : ClientList}
    {tl tl' : TransactionList} {r : Except TxError Unit}
    (h : StoreInv cl)
    (he : handle_transaction t cl tl = some (r, cl', tl')) : StoreInv cl' := by
  rw [handle_transaction_eq] at he
  have hens : StoreInv (ensureClient cl t.client_id) :=
    storeInv_ensure t.client_id h
  split at he
  case h_1 | h_2 =>
    rcases (handle_standard_cases he).2 with hcl | ⟨c, a, hc, _, hcl | hcl⟩
    · exact hcl ▸ hens
    · exact hcl ▸ storeInv_insert hens (clientInv_deposit a (hens _ _ hc))
    · exact hcl ▸ storeInv_insert hens (clientInv_withdraw a (hens _ _ hc))
  · rcases (handle_meta_cases he).2 with hcl | ⟨c, a, hc, hcl | hcl | hcl⟩
    · exact hcl ▸ hens
    · exact hcl ▸ storeInv_insert hens (clientInv_hold a (hens _ _ hc))
    · exact hcl ▸ storeInv_insert hens (clientInv_release a (hens _ _ hc))
    · exact hcl ▸
        storeInv_insert hens (clientInv_freeze (clientInv_withdraw a (hens _ _ hc)))

theorem reachable_storeInv {cl : ClientList} {tl : TransactionList}
    (h : Reachable cl tl) : StoreInv cl := by
  induction h with
  | empty => intro k c hc; simp [emptyClients] at hc
  | step _ he ih => exact handle_transaction_storeInv ih he

theorem ensureClient_of_isSome {cl : ClientList} {k : Nat}
    (h : (cl k).isSome) : ensureClient cl k = cl := by
  simp [ensureClient, h]

theorem ensureClient_of_none {cl : ClientList} {k : Nat}
    (h : cl k = none) : ensureClient cl k = insertClient cl k (Client.new k) := by
  simp [ensureClient, h]

theorem amountResult_of_some {t : Transaction} {a : Rat}
    (h : t.amount = some a) : t.amountResult = Except.ok a := by
  simp [Transaction.amountResult, h]

theorem amountResult_of_none {t : Transaction} (h : t.amount = none) :
    t.amountResult = Except.error (TxError.missingAmount t) := by
  simp [Transaction.amountResult, h]

theorem handle_standard_deposit {t : Transaction} {cl : ClientList}
    {tl : TransactionList} {c : Client} {a : Rat}
    (hk : t.transaction_type = TransactionType.Deposit)
    (hc : cl t.client_id = some c) (ha : t.amount = some a) :
    handle_standard_transaction t cl tl =
      some (Except.ok (), insertClient cl t.client_id (c.deposit a),
        insertTx tl t.transaction_id t) := by
  simp [handle_standard_transaction, hc, hk, amountResult_of_some ha]

theorem handle_standard_withdraw {t : Transaction} {cl : ClientList}
    {tl : TransactionList} {c : Client} {a : Rat}
    (hk : t.transaction_type = TransactionType.Withdrawl)
    (hc : cl t.client_id = some c) (ha : t.amount = some a) :
    handle_standard_transaction t cl tl =
      some (Except.ok (), insertClient cl t.client_id (c.withdraw a),
        insertTx tl t.transaction_id t) := by
  simp [handle_standard_transaction, hc, hk, amountResult_of_some ha]

theorem handle_standard_missing {t : Transaction} {cl : ClientList}
    {tl : TransactionList} {c : Client}
    (hk : t.transaction_type = TransactionType.Deposit ∨
      t.transaction_type = TransactionType.Withdrawl)
    (hc : cl t.client_id = some c) (ha : t.amount = none) :
    handle_standard_transaction t cl tl =
      some (Except.error (TxError.missingAmount t), cl,
        insertTx tl t.transaction_id t) := by
  rcases hk with hk | hk <;>
    simp [handle_standard_transaction, hc, hk, amountResult_of_none ha]

theorem handle_meta_miss {t : Transaction} {cl : ClientList}
    {tl : TransactionList} (h : tl t.transaction_id = none) :
    handle_meta_transaction t cl tl = some (Except.ok (), cl, tl) := by
  simp [handle_meta_transaction, h]

theorem handle_meta_resolve_noop {t tgt : Transaction} {cl : ClientList}
    {tl : TransactionList} {c : Client}
    (hk : t.transaction_type = TransactionType.Resolve)
    (htgt : tl t.transaction_id = some tgt)
    (hd : tgt.disputed = false)
    (hc : cl t.client_id = some c) :
    handle_meta_transaction t cl tl = some (Except.ok (), cl, tl) := by
  simp [handle_meta_transaction, htgt, hc, hk, hd]

/-- A deposit row, as the repository's tests build them. -/
def mkDeposit (cid tid : Nat) (a : Rat) : Transaction :=
  { transaction_type := TransactionType.Deposit
    client_id := cid
    transaction_id := tid
    amount := some a
    disputed := false }

/-- A withdrawal row. -/
def mkWithdrawal (cid tid : Nat) (a : Rat) : Transaction :=
  { transaction_type := TransactionType.Withdrawl
    client_id := cid
    transaction_id := tid
    amount := some a
    disputed := false }

/-- A meta-transaction row (no amount, `disputed` left at its serde
default `false`). -/
def mkMeta (ty : TransactionType) (cid tid : Nat) : Transaction :=
  { transaction_type := ty
    client_id := cid
    transaction_id := tid
    amount := none
    disputed := false }

/-- Deposit(client=1, tx=1, amount=10.0000) of scenarios C and D. -/
def txDeposit10 : Transaction := mkDeposit 1 1 10

/-- Dispute(client=1, tx=1) of scenario D. -/
def txDispute1 : Transaction := mkMeta TransactionType.Dispute 1 1

/-- Resolve(client=1, tx=1) of scenario C. -/
def txResolve1 : Transaction := mkMeta TransactionType.Resolve 1 1

/-- ChargeBack(client=1, tx=1) of scenario D. -/
def txChargeBack1 : Transaction := mkMeta TransactionType.ChargeBack 1 1

/-- The client list after `txDeposit10` hits the empty stores. -/
def clS1 : ClientList :=
  insertClient (insertClient emptyClients 1 (Client.new 1)) 1
    ((Client.new 1).deposit 10)

/-- The journal after `txDeposit10` hits the empty stores. -/
def tlS1 : TransactionList := insertTx emptyTxs 1 txDeposit10

/-- The client list after `txDeposit10` then `txDispute1`. -/
def clS2 : ClientList :=
  insertClient clS1 1 (((Client.new 1).deposit 10).hold 10)

theorem step_deposit10 :
    handle_transaction txDeposit10 emptyClients emptyTxs =
      some (Except.ok (), clS1, tlS1) := by
  rfl

theorem step_dispute1 :
    handle_transaction txDispute1 clS1 tlS1 =
      some (Except.ok (), clS2, tlS1) := by
  rfl

theorem clS1_lookup : clS1 1 = some ((Client.new 1).deposit 10) := by
  rfl

theorem clS2_lookup : clS2 1 = some (((Client.new 1).deposit 10).hold 10) := by
  rfl

theorem held_client_eq :
    ((Client.new 1).deposit 10).hold 10 =
      { id := 1, available_amount := 0, held_amount := 10,
        total_amount := 10, locked := false } := by
  simp only [Client.new, Client.deposit, Client.hold]
  norm_num

/-- Claim C1: a Dispute whose `tx` matches a journaled entry with a
present amount moves the entry's amount from available to held — this
part holds — but the source never writes `disputed = true` into the
journal: evaluating Deposit(1,1,10) then Dispute(1,1) leaves the
journal entry for tx 1 with `disputed = false` while the balances did
move, so the flag-setting part of the claim fails on the code. -/
theorem C1_dispute_moves_funds_but_never_sets_flag :
    runTransactions [txDeposit10, txDispute1] emptyClients emptyTxs =
      some (Except.ok (clS2, tlS1)) ∧
    clS2 1 = some ⟨1, 0, 10, 10, false⟩ ∧
    tlS1 1 = some txDeposit10 ∧
    txDeposit10.disputed = false := by
  refine ⟨rfl, ?_, rfl, rfl⟩
  rw [clS2_lookup, held_client_eq]

/-- Claim C2: evaluating scenario D — Deposit(1,1,10), Dispute(1,1),
ChargeBack(1,1) — on the code: the ChargeBack is a no-op because the
`disputed` flag was never set by the Dispute, so client 1 ends with
locked = false, available = 0, held = 10, total = 10, contradicting
the claimed locked = true and total decreased by 10. -/
theorem C2_chargeback_scenario_is_noop :
    runTransactions [txDeposit10, txDispute1, txChargeBack1]
      emptyClients emptyTxs = some (Except.ok (clS2, tlS1)) ∧
    clS2 1 = some ⟨1, 0, 10, 10, false⟩ := by
  refine ⟨rfl, ?_⟩
  rw [clS2_lookup, held_client_eq]

/-- Claim C3: in every store state reachable from the empty stores by
successful `handle_transaction` applications, every account present in
the client list satisfies total = available + held exactly, after
every transaction (ChargeBack included: its reused withdrawal mutation
decrements available and total together, preserving the sum). -/
theorem C3_total_eq_available_plus_held {cl : ClientList}
    {tl : TransactionList} (h : Reachable cl tl) :
    ∀ k c, cl k = some c →
      c.total_amount = c.available_amount + c.held_amount :=
  fun k c hc => reachable_storeInv h k c hc

/-- Witness for C3 at the state reached by Deposit(1,1,10). -/
theorem C3_total_eq_available_plus_held_witness :
    ((Client.new 1).deposit 10).total_amount =
      ((Client.new 1).deposit 10).available_amount +
        ((Client.new 1).deposit 10).held_amount :=
  C3_total_eq_available_plus_held
    (Reachable.step Reachable.empty step_deposit10) 1 _ clS1_lookup

/-- Counterexample to claim C4 as stated: a Dispute referencing a
transaction id absent from the journal, issued by a client id not yet
in the Account Store, succeeds but does NOT leave the Account Store
byte-for-byte unchanged — `handle_transaction` unconditionally
inserts a fresh account for the stated client first. -/
theorem C4_counterexample :
    handle_transaction txDispute1 emptyClients emptyTxs =
      some (Except.ok (), insertClient emptyClients 1 (Client.new 1),
        emptyTxs) ∧
    insertClient emptyClients 1 (Client.new 1) 1 ≠ emptyClients 1 := by
  refine ⟨rfl, ?_⟩
  simp [insertClient, emptyClients]

/-- Claim C4 amended: a Dispute / Resolve / ChargeBack whose `tx`
matches no journal entry returns success and leaves the journal
byte-for-byte unchanged and every account already present unchanged;
the only state change is that an account for the stated client id is
freshly created (zero balances, unlocked) when absent. -/
theorem C4_dangling_meta_noop {t : Transaction} {cl : ClientList}
    {tl : TransactionList}
    (hk : t.transaction_type = TransactionType.Dispute ∨
      t.transaction_type = TransactionType.Resolve ∨
      t.transaction_type = TransactionType.ChargeBack)
    (hmiss : tl t.transaction_id = none) :
    handle_transaction t cl tl =
      some (Except.ok (), ensureClient cl t.client_id, tl) ∧
    (∀ k c, cl k = some c → ensureClient cl t.client_id k = some c) ∧
    (cl t.client_id = none →
      ensureClient cl t.client_id t.client_id =
        some (Client.new t.client_id)) := by
  refine ⟨?_, ?_, ?_⟩
  · rw [handle_transaction_eq]
    rcases hk with hk | hk | hk <;> rw [hk] <;> exact handle_meta_miss hmiss
  · intro k c hkc
    unfold ensureClient
    split
    · exact hkc
    · rename_i hns
      unfold insertClient
      split
      · rename_i hke
        subst hke
        simp [hkc] at hns
      · exact hkc
  · intro hnone
    rw [ensureClient_of_none hnone]
    simp [insertClient]

/-- Witness for the amended C4: a Resolve of the unjournaled tx 1 on
the empty stores. -/
theorem C4_dangling_meta_noop_witness :
    handle_transaction txResolve1 emptyClients emptyTxs =
      some (Except.ok (), ensureClient emptyClients 1, emptyTxs) :=
  (C4_dangling_meta_noop (Or.inr (Or.inl rfl)) rfl).1

/-- Claim C10: every completed `handle_transaction` call (any of the
five kinds, dangling meta references included) leaves an account for
the transaction's stated client id in the Account Store; and when
that client was absent, processing the transaction is the same as
first initializing the client to `Client.new` (zero balances,
unlocked) and then processing it. -/
theorem C10_account_always_created (t : Transaction) (cl : ClientList)
    (tl : TransactionList) :
    (∀ r cl' tl', handle_transaction t cl tl = some (r, cl', tl') →
      ∃ c, cl' t.client_id = some c) ∧
    (cl t.client_id = none →
      handle_transaction t cl tl =
        handle_transaction t
          (insertClient cl t.client_id (Client.new t.client_id)) tl) := by
  constructor
  · intro r cl' tl' he
    rw [handle_transaction_eq] at he
    have hens := ensureClient_isSome cl t.client_id
    split at he
    case h_1 | h_2 =>
      rcases (handle_standard_cases he).2 with hcl | ⟨c, a, hc, ha, hcl | hcl⟩
      · subst hcl; exact Option.isSome_iff_exists.mp hens
      · subst hcl; exact ⟨c.deposit a, by simp [insertClient]⟩
      · subst hcl; exact ⟨c.withdraw a, by simp [insertClient]⟩
    · rcases (handle_meta_cases he).2 with hcl | ⟨c, a, hc, hcl | hcl | hcl⟩
      · subst hcl; exact Option.isSome_iff_exists.mp hens
      · subst hcl; exact ⟨c.hold a, by simp [insertClient]⟩
      · subst hcl; exact ⟨c.release a, by simp [insertClient]⟩
      · subst hcl; exact ⟨(c.withdraw a).freeze, by simp [insertClient]⟩
  · intro hnone
    rw [handle_transaction_eq, handle_transaction_eq,
      ensureClient_of_none hnone, ensureClient_of_isSome
        (by simp [insertClient] :
          ((insertClient cl t.client_id (Client.new t.client_id))
            t.client_id).isSome)]

/-- Witness for C10 at Deposit(1,1,10) on the empty stores. -/
theorem C10_account_always_created_witness : ∃ c, clS1 1 = some c :=
  (C10_account_always_created txDeposit10 emptyClients emptyTxs).1
    _ _ _ step_deposit10

/-- Claim C6: a Resolve whose referenced journal entry is not disputed
leaves both stores (hence the client's available, held, total and
locked fields) unchanged; and concretely Deposit(1,1,10) followed by
Resolve(1,1) with no prior Dispute yields available = 10, held = 0,
total = 10 for client 1. -/
theorem C6_resolve_without_dispute_noop {t tgt : Transaction}
    {cl : ClientList} {tl : TransactionList} {c : Client}
    (hk : t.transaction_type = TransactionType.Resolve)
    (htgt : tl t.transaction_id = some tgt)
    (hd : tgt.disputed = false)
    (hc : cl t.client_id = some c) :
    handle_transaction t cl tl = some (Except.ok (), cl, tl) ∧
    runTransactions [txDeposit10, txResolve1] emptyClients emptyTxs =
      some (Except.ok (clS1, tlS1)) ∧
    clS1 1 = some ⟨1, 10, 0, 10, false⟩ := by
  refine ⟨?_, rfl, ?_⟩
  · rw [handle_transaction_eq, hk,
      ensureClient_of_isSome (by simp [hc])]
    exact handle_meta_resolve_noop hk htgt hd hc
  · rw [clS1_lookup]
    simp only [Client.new, Client.deposit]
    norm_num

/-- Witness for C6: Resolve(1,1) on the post-deposit state, where the
journal entry for tx 1 has `disputed = false`. -/
theorem C6_resolve_without_dispute_noop_witness :
    handle_transaction txResolve1 clS1 tlS1 =
      some (Except.ok (), clS1, tlS1) :=
  (C6_resolve_without_dispute_noop rfl rfl rfl clS1_lookup).1

/-- Claim C7: a second standard transaction reusing an already
journaled transaction id overwrites the journal entry for that id
with the new transaction (rather than being rejected) and still
applies the new transaction's deposit / withdrawal to its stated
client. -/
theorem C7_duplicate_tx_overwrites {t old : Transaction}
    {cl : ClientList} {tl : TransactionList} {c : Client} {a : Rat}
    (hdup : tl t.transaction_id = some old)
    (hk : t.transaction_type = TransactionType.Deposit ∨
      t.transaction_type = TransactionType.Withdrawl)
    (ha : t.amount = some a)
    (hc : cl t.client_id = some c) :
    ∃ cl', handle_transaction t cl tl =
        some (Except.ok (), cl', insertTx tl t.transaction_id t) ∧
      insertTx tl t.transaction_id t t.transaction_id = some t ∧
      (t.transaction_type = TransactionType.Deposit →
        cl' t.client_id = some (c.deposit a)) ∧
      (t.transaction_type = TransactionType.Withdrawl →
        cl' t.client_id = some (c.withdraw a)) := by
  rcases hk with hk | hk
  · refine ⟨insertClient cl t.client_id (c.deposit a), ?_, ?_, ?_, ?_⟩
    · rw [handle_transaction_eq, hk,
        ensureClient_of_isSome (by simp [hc])]
      exact handle_standard_deposit hk hc ha
    · simp [insertTx]
    · intro _; simp [insertClient]
    · intro hw; rw [hk] at hw; simp at hw
  · refine ⟨insertClient cl t.client_id (c.withdraw a), ?_, ?_, ?_, ?_⟩
    · rw [handle_transaction_eq, hk,
        ensureClient_of_isSome (by simp [hc])]
      exact handle_standard_withdraw hk hc ha
    · simp [insertTx]
    · intro hd; rw [hk] at hd; simp at hd
    · intro _; simp [insertClient]

/-- Witness for C7: a second Deposit reusing tx 1 (amount 5) after
Deposit(1,1,10), as in the repository's own duplicate-id test. -/
theorem C7_duplicate_tx_overwrites_witness :
    ∃ cl', handle_transaction (mkDeposit 1 1 5) clS1 tlS1 =
        some (Except.ok (), cl', insertTx tlS1 1 (mkDeposit 1 1 5)) ∧
      insertTx tlS1 1 (mkDeposit 1 1 5) 1 = some (mkDeposit 1 1 5) ∧
      ((mkDeposit 1 1 5).transaction_type = TransactionType.Deposit →
        cl' 1 = some (((Client.new 1).deposit 10).deposit 5)) ∧
      ((mkDeposit 1 1 5).transaction_type = TransactionType.Withdrawl →
        cl' 1 = some (((Client.new 1).deposit 10).withdraw 5)) :=
  C7_duplicate_tx_overwrites rfl (Or.inl rfl) rfl clS1_lookup

/-- The single-withdrawal run that drives client 1 negative. -/
def txWithdraw5 : Transaction := mkWithdrawal 1 1 5

/-- The client list after `txWithdraw5` hits the empty stores. -/
def clW : ClientList :=
  insertClient (insertClient emptyClients 1 (Client.new 1)) 1
    ((Client.new 1).withdraw 5)

/-- The journal after `txWithdraw5` hits the empty stores. -/
def tlW : TransactionList := insertTx emptyTxs 1 txWithdraw5

/-- Claim C8: a Withdrawal with a present amount always decreases
available and total by exactly that amount, with no precondition that
available covers it; and concretely a lone Withdrawal(1,1,5) from the
empty stores is applied and leaves client 1 with available = -5. -/
theorem C8_withdrawal_unchecked :
    (∀ (t : Transaction) (cl : ClientList) (tl : TransactionList)
      (c : Client) (a : Rat),
      t.transaction_type = TransactionType.Withdrawl →
      t.amount = some a → cl t.client_id = some c →
      handle_transaction t cl tl =
        some (Except.ok (), insertClient cl t.client_id (c.withdraw a),
          insertTx tl t.transaction_id t) ∧
      (c.withdraw a).available_amount = c.available_amount - a ∧
      (c.withdraw a).total_amount = c.total_amount - a) ∧
    (runTransactions [txWithdraw5] emptyClients emptyTxs =
      some (Except.ok (clW, tlW)) ∧
      clW 1 = some ⟨1, -5, 0, -5, false⟩ ∧ (-5 : Rat) < 0) := by
  constructor
  · intro t cl tl c a hk ha hc
    refine ⟨?_, by simp [Client.withdraw], by simp [Client.withdraw]⟩
    rw [handle_transaction_eq, hk,
      ensureClient_of_isSome (by simp [hc])]
    exact handle_standard_withdraw hk hc ha
  · refine ⟨rfl, ?_, by norm_num⟩
    rw [show clW 1 = some ((Client.new 1).withdraw 5) from rfl]
    simp only [Client.new, Client.withdraw]
    norm_num

/-- Witness for C8: Withdrawal(1,2,5) against the post-deposit state. -/
theorem C8_withdrawal_unchecked_witness :
    handle_transaction (mkWithdrawal 1 2 5) clS1 tlS1 =
      some (Except.ok (),
        insertClient clS1 1 (((Client.new 1).deposit 10).withdraw 5),
        insertTx tlS1 2 (mkWithdrawal 1 2 5)) :=
  ((C8_withdrawal_unchecked).1 (mkWithdrawal 1 2 5) clS1 tlS1
    ((Client.new 1).deposit 10) 5 rfl rfl clS1_lookup).1

/-- Claim C9: a Deposit of `a` followed by a Withdrawal of `a` (fresh,
distinct transaction ids) returns the client's available and total to
their pre-deposit values, and held is unchanged throughout. -/
theorem C9_deposit_withdraw_roundtrip {cl : ClientList}
    {tl : TransactionList} {c : Client} {cid t1 t2 : Nat} {a : Rat}
    (hc : cl cid = some c)
    (hf1 : tl t1 = none) (hf2 : tl t2 = none) (hne : t1 ≠ t2) :
    ∃ cl1 tl1 cl2 tl2,
      handle_transaction (mkDeposit cid t1 a) cl tl =
        some (Except.ok (), cl1, tl1) ∧
      handle_transaction (mkWithdrawal cid t2 a) cl1 tl1 =
        some (Except.ok (), cl2, tl2) ∧
      cl1 cid = some (c.deposit a) ∧
      (c.deposit a).held_amount = c.held_amount ∧
      ∃ c2, cl2 cid = some c2 ∧
        c2.available_amount = c.available_amount ∧
        c2.total_amount = c.total_amount ∧
        c2.held_amount = c.held_amount := by
  refine ⟨insertClient cl cid (c.deposit a),
    insertTx tl t1 (mkDeposit cid t1 a),
    insertClient (insertClient cl cid (c.deposit a)) cid
      ((c.deposit a).withdraw a),
    insertTx (insertTx tl t1 (mkDeposit cid t1 a)) t2
      (mkWithdrawal cid t2 a),
    ?_, ?_, by simp [insertClient], by simp [Client.deposit],
    (c.deposit a).withdraw a, by simp [insertClient], ?_, ?_, ?_⟩
  · rw [handle_transaction_eq]
    rw [show (mkDeposit cid t1 a).transaction_type =
      TransactionType.Deposit from rfl]
    rw [ensureClient_of_isSome (by simp [mkDeposit, hc])]
    exact handle_standard_deposit rfl hc rfl
  · rw [handle_transaction_eq]
    rw [show (mkWithdrawal cid t2 a).transaction_type =
      TransactionType.Withdrawl from rfl]
    rw [ensureClient_of_isSome
      (by simp [show (mkWithdrawal cid t2 a).client_id = cid from rfl,
        insertClient])]
    exact handle_standard_withdraw rfl
      (by simp [show (mkWithdrawal cid t2 a).client_id = cid from rfl,
        insertClient]) rfl
  · simp only [Client.deposit, Client.withdraw]
    ring
  · simp only [Client.deposit, Client.withdraw]
    ring
  · simp [Client.deposit, Client.withdraw]

theorem result_error_ne_ok {e : TxError} {cl cl' : ClientList}
    {tl tl' : TransactionList}
    (h : (some (Except.error e, cl, tl) : Option EngineResult) =
      some (Except.ok (), cl', tl')) : False := by
  have h' := Option.some.inj h
  have h1 := congrArg Prod.fst h'
  exact Except.noConfusion h1

theorem result_ok_ne_error {e : TxError} {cl cl' : ClientList}
    {tl tl' : TransactionList}
    (h : (some (Except.ok (), cl, tl) : Option EngineResult) =
      some (Except.error e, cl', tl')) : False := by
  have h' := Option.some.inj h
  have h1 := congrArg Prod.fst h'
  exact Except.noConfusion h1

theorem result_error_inj {e e' : TxError} {cl cl' : ClientList}
    {tl tl' : TransactionList}
    (h : (some (Except.error e, cl, tl) : Option EngineResult) =
      some (Except.error e', cl', tl')) :
    e = e' ∧ cl = cl' ∧ tl = tl' := by
  have h' := Option.some.inj h
  have h1 := congrArg Prod.fst h'
  have h2 := congrArg (fun p : EngineResult => p.2.1) h'
  have h3 := congrArg (fun p : EngineResult => p.2.2) h'
  refine ⟨?_, h2, h3⟩
  injection h1

theorem handle_standard_ok_amount {t : Transaction} {cl cl' : ClientList}
    {tl tl' : TransactionList}
    (h : handle_standard_transaction t cl tl =
      some (Except.ok (), cl', tl')) : t.amount ≠ none := by
  intro ha
  simp only [handle_standard_transaction] at h
  split at h
  · simp at h
  · split at h
    · simp only [amountResult_of_none ha] at h
      exact result_error_ne_ok h
    · simp only [amountResult_of_none ha] at h
      exact result_error_ne_ok h
    · simp at h

theorem reachable_journalAmounts {cl : ClientList} {tl : TransactionList}
    (h : Reachable cl tl) : JournalAmounts tl := by
  induction h with
  | empty => intro i tr htr; simp [emptyTxs] at htr
  | @step cl₀ tl₀ cl₁ tl₁ t hr he ih =>
    rw [handle_transaction_eq] at he
    split at he
    case h_1 | h_2 =>
      intro i tr htr
      rw [(handle_standard_cases he).1] at htr
      unfold insertTx at htr
      by_cases hi : i = t.transaction_id
      · rw [if_pos hi] at htr
        cases htr
        exact handle_standard_ok_amount he
      · rw [if_neg hi] at htr
        exact ih i tr htr
    · intro i tr htr
      rw [(handle_meta_cases he).1] at htr
      exact ih i tr htr

theorem handle_standard_error {t : Transaction} {cl cl' : ClientList}
    {tl tl' : TransactionList} {e : TxError}
    (h : handle_standard_transaction t cl tl =
      some (Except.error e, cl', tl')) :
    t.amount = none ∧ e = TxError.missingAmount t ∧ cl' = cl ∧
      tl' = insertTx tl t.transaction_id t := by
  simp only [handle_standard_transaction] at h
  split at h
  · simp at h
  · split at h
    · split at h <;> rename_i ha
      · exact (result_ok_ne_error h).elim
      · rcases amountResult_eq_error.mp ha with ⟨han, he'⟩
        obtain ⟨h1, h2, h3⟩ := result_error_inj h
        exact ⟨han, h1 ▸ he', h2.symm, h3.symm⟩
    · split at h <;> rename_i ha
      · exact (result_ok_ne_error h).elim
      · rcases amountResult_eq_error.mp ha with ⟨han, he'⟩
        obtain ⟨h1, h2, h3⟩ := result_error_inj h
        exact ⟨han, h1 ▸ he', h2.symm, h3.symm⟩
    · simp at h

theorem handle_meta_error {t : Transaction} {cl cl' : ClientList}
    {tl tl' : TransactionList} {e : TxError}
    (h : handle_meta_transaction t cl tl =
      some (Except.error e, cl', tl')) :
    ∃ tgt, tl t.transaction_id = some tgt ∧ tgt.amount = none := by
  simp only [handle_meta_transaction] at h
  split at h
  · exact (result_ok_ne_error h).elim
  · rename_i tgt htgt
    refine ⟨tgt, htgt, ?_⟩
    split at h
    · simp at h
    · split at h
      · split at h <;> rename_i ha
        · exact (result_ok_ne_error h).elim
        · exact (amountResult_eq_error.mp ha).1
      · split at h
        · split at h <;> rename_i ha
          · exact (result_ok_ne_error h).elim
          · exact (amountResult_eq_error.mp ha).1
        · exact (result_ok_ne_error h).elim
      · split at h
        · split at h <;> rename_i ha
          · exact (result_ok_ne_error h).elim
          · exact (amountResult_eq_error.mp ha).1
        · exact (result_ok_ne_error h).elim
      · simp at h

/-- Deposit(client=1, tx=1) carrying no amount. -/
def txDepositNone : Transaction :=
  { transaction_type := TransactionType.Deposit
    client_id := 1
    transaction_id := 1
    amount := none
    disputed := false }

/-- Counterexample to claim C5 as stated: a Deposit with no amount on
the empty stores does return the missing-amount error, but the call
is NOT atomic — the journal has already gained the entry for tx 1
(and the Account Store an account for client 1) when the error is
returned. -/
theorem C5_counterexample :
    handle_transaction txDepositNone emptyClients emptyTxs =
      some (Except.error (TxError.missingAmount txDepositNone),
        insertClient emptyClients 1 (Client.new 1),
        insertTx emptyTxs 1 txDepositNone) ∧
    insertTx emptyTxs 1 txDepositNone 1 ≠ emptyTxs 1 := by
  refine ⟨rfl, ?_⟩
  simp [insertTx, emptyTxs]

/-- Claim C5 amended: on every reachable store state,
`handle_transaction` returns an error iff the transaction is a
Deposit or Withdrawal whose amount is absent; but the failing call is
not atomic: the post-error state has the client's account created (if
absent) and the journal entry for the transaction id inserted /
overwritten with the failing transaction — only the balances are
untouched. -/
theorem C5_error_iff_missing_amount {cl : ClientList}
    {tl : TransactionList} (h : Reachable cl tl) (t : Transaction) :
    ((∃ e cl' tl', handle_transaction t cl tl =
        some (Except.error e, cl', tl')) ↔
      ((t.transaction_type = TransactionType.Deposit ∨
        t.transaction_type = TransactionType.Withdrawl) ∧
        t.amount = none)) ∧
    (∀ e cl' tl', handle_transaction t cl tl =
        some (Except.error e, cl', tl') →
      e = TxError.missingAmount t ∧
      cl' = ensureClient cl t.client_id ∧
      tl' = insertTx tl t.transaction_id t) := by
  have hja := reachable_journalAmounts h
  constructor
  · constructor
    · rintro ⟨e, cl', tl', he⟩
      rw [handle_transaction_eq] at he
      split at he
      case h_1 hk => exact ⟨Or.inl hk, (handle_standard_error he).1⟩
      case h_2 hk => exact ⟨Or.inr hk, (handle_standard_error he).1⟩
      case h_3 =>
        obtain ⟨tgt, htgt, hnone⟩ := handle_meta_error he
        exact absurd hnone (hja _ _ htgt)
    · rintro ⟨hk, ha⟩
      obtain ⟨c, hc⟩ :=
        Option.isSome_iff_exists.mp (ensureClient_isSome cl t.client_id)
      refine ⟨TxError.missingAmount t, ensureClient cl t.client_id,
        insertTx tl t.transaction_id t, ?_⟩
      rw [handle_transaction_eq]
      rcases hk with hk | hk <;> rw [hk] <;>
        exact handle_standard_missing (by simp [hk]) hc ha
  · intro e cl' tl' he
    rw [handle_transaction_eq] at he
    split at he
    case h_1 | h_2 =>
      obtain ⟨_, he2, hcl, htl⟩ := handle_standard_error he
      exact ⟨he2, hcl, htl⟩
    case h_3 =>
      obtain ⟨tgt, htgt, hnone⟩ := handle_meta_error he
      exact absurd hnone (hja _ _ htgt)

/-- Witness for the amended C5 at the empty stores with
Deposit(1,1,no amount). -/
theorem C5_error_iff_missing_amount_witness :
    ((∃ e cl' tl', handle_transaction txDepositNone emptyClients emptyTxs =
        some (Except.error e, cl', tl')) ↔
      ((txDepositNone.transaction_type = TransactionType.Deposit ∨
        txDepositNone.transaction_type = TransactionType.Withdrawl) ∧
        txDepositNone.amount = none)) ∧
    (∀ e cl' tl', handle_transaction txDepositNone emptyClients emptyTxs =
        some (Except.error e, cl', tl') →
      e = TxError.missingAmount txDepositNone ∧
      cl' = ensureClient emptyClients 1 ∧
      tl' = insertTx emptyTxs 1 txDepositNone) :=
  C5_error_iff_missing_amount Reachable.empty txDepositNone

/-- Witness for C9: deposit 5 then withdraw 5 (tx 2 and 3) against the
post-deposit state of client 1. -/
theorem C9_deposit_withdraw_roundtrip_witness :
    ∃ cl1 tl1 cl2 tl2,
      handle_transaction (mkDeposit 1 2 5) clS1 tlS1 =
        some (Except.ok (), cl1, tl1) ∧
      handle_transaction (mkWithdrawal 1 3 5) cl1 tl1 =
        some (Except.ok (), cl2, tl2) ∧
      cl1 1 = some (((Client.new 1).deposit 10).deposit 5) ∧
      (((Client.new 1).deposit 10).deposit 5).held_amount =
        ((Client.new 1).deposit 10).held_amount ∧
      ∃ c2, cl2 1 = some c2 ∧
        c2.available_amount = ((Client.new 1).deposit 10).available_amount ∧
        c2.total_amount = ((Client.new 1).deposit 10).total_amount ∧
        c2.held_amount = ((Client.new 1).deposit 10).held_amount :=
  C9_deposit_withdraw_roundtrip clS1_lookup rfl rfl (by decide)

end ToyMarketplace
